import Mathlib

/-!
Verification of the inventory-reorder demo app (`src/App.js`).

The app generates mock products with a deterministic arithmetic formula,
labels them with a business rule, normalizes features, trains a small
classifier, scores every record, and can export the table to CSV.

Embedding conventions:
* JS numbers are embedded as `ℚ` (exact rational arithmetic); integer-valued
  fields as `ℕ`.
* `Math.sin` / `Math.cos` are deterministic library functions whose exact
  values are irrelevant to every claim; they are abstracted as parameters
  `s c : ℕ → ℚ` (the argument is the integer passed to them in the source).
* `Math.round` on a non-negative number is `⌊x + 1/2⌋`.
* JS strings are embedded as lists of code units (`List ℕ`).
* The TF.js model's final dense layer uses the `sigmoid` activation; the raw
  pre-activation outputs are abstracted as a function `ℕ → ℝ` and the sigmoid
  itself is embedded below.
-/

set_option autoImplicit false

namespace Forecast

/-- JS `Math.round` for non-negative inputs: round half toward `+∞`. -/
def jsRound (x : ℚ) : ℤ := ⌊x + 1/2⌋

/-- The fixed display-name pool of `generateProducts` (`src/App.js` lines 13-17). -/
def names : List String :=
  ["Choco Bar","Soda Pack","Rice 5kg","Coffee Beans","Toothpaste","Shampoo","Notebook","Pen",
   "Soap Bar","Cereal","Juice Bottle","Water Bottle","Ketchup","Mayonnaise","Cookies","Tea Box",
   "Nuts Pack","Olive Oil","Pasta","Sauce"]

/-- Code units of a Lean string literal (JS strings are unit sequences). -/
def strUnits (s : String) : List ℕ := s.data.map Char.toNat

/-- One product record (`src/App.js` lines 31-38 plus the prediction fields
added at lines 152-156).  `name` is kept as code units. -/
structure Product where
  id : ℕ
  name : List ℕ
  currentInventory : ℕ
  avgSalesPerWeek : ℕ
  daysToReplenish : ℕ
  reorder : ℕ
  predictionScore : Option ℚ := none
  prediction : Option ℕ := none
  predictionText : Option (List ℕ) := none
  deriving Repr, DecidableEq

instance : Inhabited Product := ⟨⟨0, [], 0, 0, 0, 0, none, none, none⟩⟩

/-- Little-endian decimal digits of `n`, with explicit fuel so that the
recursion is structural (kernel-evaluable). -/
def toDigitsRev (fuel n : ℕ) : List ℕ :=
  match fuel with
  | 0 => []
  | fuel + 1 => if n = 0 then [] else n % 10 :: toDigitsRev fuel (n / 10)

/-- Decimal code units of a natural number, exactly as JS number-to-string
renders an integral value (`"0"` for zero). -/
def natUnits (n : ℕ) : List ℕ :=
  if n = 0 then [48] else (toDigitsRev n n).reverse.map (fun d => 48 + d)

/-- Parse decimal code units back to a number (Horner left fold). -/
def parseNat (units : List ℕ) : ℕ :=
  units.foldl (fun acc u => 10 * acc + (u - 48)) 0

/-- The business rule of the spec, recomputed from stored fields:
`1` iff `currentInventory < avgSalesPerWeek · (daysToReplenish/7) · 1.25`. -/
def reorderRule (inv avg days : ℕ) : ℕ :=
  if (inv : ℚ) < (avg : ℚ) * ((days : ℚ) / 7) * (5/4) then 1 else 0

/-- The loop body of `generateProducts` for index `i` (`src/App.js` lines 20-38).
`s`/`c` stand for `Math.sin`/`Math.cos`. -/
def mkProduct (s c : ℕ → ℚ) (i : ℕ) : Product :=
  let name := strUnits (names.getD (i % names.length) "") ++ [32] ++ natUnits i
  let avgSalesPerWeek := (max 1 (jsRound (|s (i * 11)| * 120))).toNat
  let currentInventory := (max 0 (jsRound (|c (i * 7)| * 400))).toNat
  let daysToReplenish := 1 + (i % 21)
  let expectedDuringLead := (avgSalesPerWeek : ℚ) * ((daysToReplenish : ℚ) / 7)
  let safetyFactor : ℚ := 5/4
  let reorder := if (currentInventory : ℚ) < expectedDuringLead * safetyFactor then 1 else 0
  { id := i, name := name, currentInventory := currentInventory,
    avgSalesPerWeek := avgSalesPerWeek, daysToReplenish := daysToReplenish,
    reorder := reorder }

/-- The `for (let i = 1; i <= count; i++)` loop of `generateProducts`,
pushing one record per index onto the accumulator. -/
def generateLoop (s c : ℕ → ℚ) (count i : ℕ) (acc : List Product) : List Product :=
  if i ≤ count then generateLoop s c count (i + 1) (acc ++ [mkProduct s c i]) else acc
  termination_by count + 1 - i

/-- `generateProducts` (`src/App.js` lines 12-41). -/
def generateProducts (s c : ℕ → ℚ) (count : ℕ) : List Product :=
  generateLoop s c count 1 []

/-- `tf.divNoNan`: elementwise division that yields `0` when the divisor is `0`
(`src/App.js` line 46). -/
def divNoNan (a b : ℚ) : ℚ := if b = 0 then 0 else a / b

/-- `normalize(tensor, min, max)` (`src/App.js` lines 43-47): subtract the
per-column minimum and `divNoNan` by the per-column range.  A row-major matrix
is a list of rows; the broadcast `min`/`max` vectors are functions of the
column index. -/
def normalize (rows : List (List ℚ)) (mins maxs : ℕ → ℚ) : List (List ℚ) :=
  rows.map (fun r =>
    (List.range r.length).map (fun j => divNoNan (r.getD j 0 - mins j) (maxs j - mins j)))

/-- `xTensor.min(0)` (`src/App.js` line 82): minimum of column `j`. -/
def colMin (rows : List (List ℚ)) (j : ℕ) : ℚ :=
  match rows with
  | [] => 0
  | r :: rs => (rs.map (fun t => t.getD j 0)).foldl min (r.getD j 0)

/-- `xTensor.max(0)` (`src/App.js` line 83): maximum of column `j`. -/
def colMax (rows : List (List ℚ)) (j : ℕ) : ℚ :=
  match rows with
  | [] => 0
  | r :: rs => (rs.map (fun t => t.getD j 0)).foldl max (r.getD j 0)

/-- The feature row of a product (`src/App.js` line 76). -/
def featureRow (p : Product) : List ℚ :=
  [(p.currentInventory : ℚ), (p.avgSalesPerWeek : ℚ), (p.daysToReplenish : ℚ)]

/-- `Math.floor(total * 0.8)` (`src/App.js` line 98). -/
def splitIndex (total : ℕ) : ℕ := (⌊(total : ℚ) * (4/5)⌋).toNat

/-- The positional train/validation split of `buildAndTrainModel`
(`src/App.js` lines 97-102): `slice` of the first `split` rows and `slice`
of the remaining `total - split` rows. -/
def trainValSplit {α : Type} (xs : List α) : List α × List α :=
  (xs.take (splitIndex xs.length), xs.drop (splitIndex xs.length))

/-- The per-record update of a successful prediction pass (`src/App.js`
lines 152-156): spread the old record and overwrite the three prediction
fields from the fresh score. -/
def applyPred (p : Product) (score : ℚ) : Product :=
  let predicted : ℕ := if score > 1/2 then 1 else 0
  { p with predictionScore := some score, prediction := some predicted,
           predictionText :=
             some (if predicted = 1 then strUnits "Reorder" else strUnits "No Reorder") }

/-- `products.map((p, i) => ...)` of `src/App.js` lines 152-156; `predData`
is the flat scores buffer indexed by record position. -/
def applyPredictions (products : List Product) (predData : ℕ → ℚ) : List Product :=
  products.enum.map (fun ip => applyPred ip.2 (predData ip.1))

/-- The dashboard stats (`src/App.js` lines 52-57).  `modelAccuracy` keeps
the raw `valAcc` (`null` ↦ `none`); its percent-formatting is presentation
only. -/
structure Stats where
  total : ℕ
  serverReorders : ℕ
  modelReorders : ℕ
  modelAccuracy : Option ℚ
  deriving Repr, DecidableEq

/-- The component state read and written by `trainAndPredict`. -/
structure AppState where
  products : List Product
  runningModel : Bool
  stats : Stats
  deriving Repr, DecidableEq

/-- Abstract outcome of the `await`ed TF.js work inside the `try` block of
`trainAndPredict`: either the scores buffer `predData` together with the
final validation accuracy, or a thrown error carrying its message. -/
inductive TrainOutcome where
  | ok (predData : ℕ → ℚ) (valAcc : Option ℚ)
  | err (msg : List ℕ)

/-- `updated.reduce((s, p) => s + (p.reorder ? 1 : 0), 0)` (`src/App.js`
line 162). -/
def countServerReorders (ps : List Product) : ℕ :=
  ps.foldl (fun acc p => acc + if p.reorder ≠ 0 then 1 else 0) 0

/-- `updated.reduce((s, x) => s + (x.prediction ? 1 : 0), 0)` (`src/App.js`
line 158); `x.prediction` is truthy iff it is present and nonzero. -/
def countModelReorders (ps : List Product) : ℕ :=
  ps.foldl (fun acc p => acc + if p.prediction.getD 0 ≠ 0 then 1 else 0) 0

/-- `trainAndPredict` (`src/App.js` lines 136-176) as a state transition.
Returns the final state and the list of `alert` messages raised.  The
transient `setRunningModel(true)` at line 141 is superseded on every exit
path of the `try`/`catch` by the `finally` at line 174, so only the final
flag value appears. -/
def trainAndPredict (st : AppState) (outcome : TrainOutcome) : AppState × List (List ℕ) :=
  if st.products = [] then (st, [strUnits "No products available."])
  else
    match outcome with
    | .ok predData valAcc =>
      let updated := applyPredictions st.products predData
      ({ products := updated,
         runningModel := false,
         stats := { total := updated.length,
                    serverReorders := countServerReorders updated,
                    modelReorders := countModelReorders updated,
                    modelAccuracy := valAcc } }, [])
    | .err msg =>
      ({ st with runningModel := false },
       [strUnits "Error training/predicting: " ++ msg])

/-- The `sigmoid` activation of the output layer (`src/App.js` line 89). -/
noncomputable def sigmoid (x : ℝ) : ℝ := 1 / (1 + Real.exp (-x))

/-- `String(p.name).replace(/"/g, '""')` (`src/App.js` line 187). -/
def escapeQuotes (units : List ℕ) : List ℕ :=
  units.flatMap (fun u => if u = 34 then [34, 34] else [u])

/-- The double-quoted name field of `src/App.js` line 187. -/
def quoteField (units : List ℕ) : List ℕ := 34 :: (escapeQuotes units ++ [34])

/-- `p.prediction ?? ""` (`src/App.js` line 192): a nullish check, so a
present `0` renders as `"0"`. -/
def predictionField (p : Product) : List ℕ :=
  match p.prediction with
  | none => []
  | some v => natUnits v

/-- Left-pad a digit string with `'0'` units to width `w`. -/
def padZeros (w : ℕ) (ds : List ℕ) : List ℕ := List.replicate (w - ds.length) 48 ++ ds

/-- `m / 10⁴` rendered with exactly four fractional digits. -/
def toFixed4Nat (m : ℕ) : List ℕ :=
  natUnits (m / 10000) ++ [46] ++ padZeros 4 (natUnits (m % 10000))

/-- JS `Number.prototype.toFixed(4)`: round `|q|·10⁴` half toward the larger
integer, render with four fractional digits, and prepend the sign. -/
def toFixed4 (q : ℚ) : List ℕ :=
  if q < 0 then 45 :: toFixed4Nat (⌊-q * 10000 + 1/2⌋).toNat
  else toFixed4Nat (⌊q * 10000 + 1/2⌋).toNat

/-- `p.predictionScore ? p.predictionScore.toFixed(4) : ""` (`src/App.js`
line 193): a truthiness check, so a score of exactly `0` renders blank. -/
def predictionScoreField (p : Product) : List ℕ :=
  match p.predictionScore with
  | none => []
  | some q => if q = 0 then [] else toFixed4 q

/-- `Array.prototype.join` with a single-unit separator. -/
def joinSep (sep : ℕ) : List (List ℕ) → List ℕ
  | [] => []
  | [f] => f
  | f :: g :: fs => f ++ sep :: joinSep sep (g :: fs)

/-- One CSV data row (`src/App.js` lines 184-195): the eight fields joined
with `","`. -/
def csvRow (p : Product) : List ℕ :=
  joinSep 44 [natUnits p.id, quoteField p.name, natUnits p.currentInventory,
    natUnits p.avgSalesPerWeek, natUnits p.daysToReplenish, natUnits p.reorder,
    predictionField p, predictionScoreField p]

/-- `header.join(",")` (`src/App.js` lines 183 and 196). -/
def csvHeader : List ℕ :=
  joinSep 44 [strUnits "id", strUnits "name", strUnits "currentInventory",
    strUnits "avgSalesPerWeek", strUnits "daysToReplenish", strUnits "serverReorder",
    strUnits "prediction", strUnits "predictionScore"]

/-- The exported file `[header.join(","), ...rows].join("\n")`
(`src/App.js` line 196). -/
def csvFile (ps : List Product) : List ℕ :=
  joinSep 10 (csvHeader :: ps.map csvRow)

/-- Split a unit sequence at every occurrence of `sep` (JS `split`). -/
def splitSep (sep : ℕ) : List ℕ → List (List ℕ)
  | [] => [[]]
  | u :: rest =>
    if u = sep then [] :: splitSep sep rest
    else
      match splitSep sep rest with
      | [] => [[u]]
      | f :: fs => (u :: f) :: fs

/-- A name is CSV-safe when it contains no comma unit and no newline unit. -/
def nameSafe (units : List ℕ) : Prop := 44 ∉ units ∧ 10 ∉ units

instance (units : List ℕ) : Decidable (nameSafe units) := by
  unfold nameSafe; infer_instance

theorem generateLoop_eq (s c : ℕ → ℚ) (count : ℕ) :
    ∀ i acc, generateLoop s c count i acc =
      acc ++ (List.range (count + 1 - i)).map (fun k => mkProduct s c (i + k)) := by
  have key : ∀ n i acc, count + 1 - i = n →
      generateLoop s c count i acc =
        acc ++ (List.range n).map (fun k => mkProduct s c (i + k)) := by
    intro n
    induction n with
    | zero =>
      intro i acc h
      rw [generateLoop]
      have : ¬ i ≤ count := by omega
      simp [this]
    | succ m ih =>
      intro i acc h
      rw [generateLoop]
      have hle : i ≤ count := by omega
      rw [if_pos hle, ih (i + 1) _ (by omega), List.range_succ_eq_map]
      simp [List.map_map, Function.comp_def, List.append_assoc]
      intro a _
      congr 1
      omega
  intro i acc
  exact key (count + 1 - i) i acc rfl

theorem generateProducts_eq_map (s c : ℕ → ℚ) (count : ℕ) :
    generateProducts s c count = (List.range count).map (fun k => mkProduct s c (k + 1)) := by
  rw [generateProducts, generateLoop_eq]
  simp only [Nat.add_sub_cancel, List.nil_append]
  apply List.map_congr_left
  intro k _
  simp [Nat.add_comm]

theorem generateProducts_length (s c : ℕ → ℚ) (count : ℕ) :
    (generateProducts s c count).length = count := by
  rw [generateProducts_eq_map]; simp

theorem generateProducts_getD (s c : ℕ → ℚ) (count i : ℕ) (h : i < count) :
    (generateProducts s c count).getD i default = mkProduct s c (i + 1) := by
  rw [generateProducts_eq_map, List.getD_eq_getElem?_getD, List.getElem?_map,
    List.getElem?_range h]
  rfl

theorem mkProduct_reorder_eq_rule (s c : ℕ → ℚ) (i : ℕ) :
    (mkProduct s c i).reorder =
      reorderRule (mkProduct s c i).currentInventory (mkProduct s c i).avgSalesPerWeek
        (mkProduct s c i).daysToReplenish := by
  rfl

/-- C1: for every `count` and every `i ∈ [1, count]`, the record at position
`i-1` of `generateProducts count` has `reorder = 1` iff
`currentInventory < avgSalesPerWeek · (daysToReplenish / 7) · 1.25`, the three
fields being those of that same record. -/
theorem reorder_label_iff_rule (s c : ℕ → ℚ) (count i : ℕ)
    (h1 : 1 ≤ i) (h2 : i ≤ count) :
    ((generateProducts s c count).getD (i - 1) default).reorder = 1 ↔
      (((generateProducts s c count).getD (i - 1) default).currentInventory : ℚ) <
        (((generateProducts s c count).getD (i - 1) default).avgSalesPerWeek : ℚ) *
          ((((generateProducts s c count).getD (i - 1) default).daysToReplenish : ℚ) / 7) *
          (5/4) := by
  rw [generateProducts_getD s c count (i - 1) (by omega)]
  have hi : i - 1 + 1 = i := by omega
  rw [hi, mkProduct]
  by_cases hlt :
      ((((max 0 (jsRound (|c (i * 7)| * 400))).toNat : ℕ)) : ℚ) <
        (((max 1 (jsRound (|s (i * 11)| * 120))).toNat : ℕ) : ℚ) *
          (((1 + (i % 21) : ℕ) : ℚ) / 7) * (5/4)
  · simp only [hlt, if_pos, mul_assoc] at *
    simp [mul_assoc, hlt]
  · simp only [mul_assoc] at hlt
    simp [hlt, mul_assoc]

/-- C1 witness: concrete instantiation at `count = 3`, `i = 2`. -/
theorem reorder_label_iff_rule_witness :
    (1 : ℕ) ≤ 2 ∧ (2 : ℕ) ≤ 3 ∧
      (((generateProducts (fun _ => 1/2) (fun _ => 1/3) 3).getD (2 - 1) default).reorder = 1 ↔
        (((generateProducts (fun _ => 1/2) (fun _ => 1/3) 3).getD (2 - 1) default).currentInventory : ℚ) <
          (((generateProducts (fun _ => 1/2) (fun _ => 1/3) 3).getD (2 - 1) default).avgSalesPerWeek : ℚ) *
            ((((generateProducts (fun _ => 1/2) (fun _ => 1/3) 3).getD (2 - 1) default).daysToReplenish : ℚ) / 7) *
            (5/4)) :=
  ⟨by decide, by decide,
    reorder_label_iff_rule (fun _ => 1/2) (fun _ => 1/3) 3 2 (by decide) (by decide)⟩

/-- C7: `generateProducts` is deterministic and pure: its output is exactly the
map of a pure per-index function over `1..count`, so two calls with the same
`count` (and the same deterministic `Math.sin`/`Math.cos`) produce identical
sequences; there is no external randomness and no side effect in the model. -/
theorem generateProducts_deterministic (s c : ℕ → ℚ) (count : ℕ) :
    generateProducts s c count = (List.range count).map (fun k => mkProduct s c (k + 1)) ∧
      generateProducts s c count = generateProducts s c count :=
  ⟨generateProducts_eq_map s c count, rfl⟩

/-- C8: `generateProducts count` has exactly `count` records, the record at
position `i` has `id = i + 1` (ids `1..count` in order), and `count = 0`
yields the empty sequence. -/
theorem generateProducts_ids (s c : ℕ → ℚ) (count : ℕ) :
    (generateProducts s c count).length = count ∧
      (∀ i, i < count → ((generateProducts s c count).getD i default).id = i + 1) ∧
      generateProducts s c 0 = [] := by
  refine ⟨generateProducts_length s c count, ?_, ?_⟩
  · intro i hi
    rw [generateProducts_getD s c count i hi, mkProduct]
  · rw [generateProducts_eq_map]; simp

/-- C8 witness: concrete instantiation at `count = 5`, `i = 4`. -/
theorem generateProducts_ids_witness :
    (generateProducts (fun _ => 1/2) (fun _ => 1/3) 5).length = 5 ∧
      ((generateProducts (fun _ => 1/2) (fun _ => 1/3) 5).getD 4 default).id = 5 := by
  refine ⟨(generateProducts_ids (fun _ => 1/2) (fun _ => 1/3) 5).1, ?_⟩
  exact (generateProducts_ids (fun _ => 1/2) (fun _ => 1/3) 5).2.1 4 (by decide)

/-- C2: in the normalization step, any feature column whose per-column maximum
equals its per-column minimum normalizes to `0` in every row: the division is
the guarded `divNoNan`, so a zero range never produces a divide-by-zero
result. -/
theorem normalize_const_column_zero (rows : List (List ℚ)) (j : ℕ)
    (h : colMax rows j = colMin rows j) :
    ∀ row ∈ normalize rows (colMin rows) (colMax rows), row.getD j 0 = 0 := by
  intro row hrow
  rw [normalize] at hrow
  obtain ⟨r, _, rfl⟩ := List.mem_map.1 hrow
  by_cases hj : j < r.length
  · rw [List.getD_eq_getElem?_getD, List.getElem?_map, List.getElem?_range hj]
    simp [divNoNan, h]
  · have hnone : (List.range r.length)[j]? = none :=
      List.getElem?_eq_none (by simpa using Nat.le_of_not_lt hj)
    rw [List.getD_eq_getElem?_getD, List.getElem?_map, hnone]
    rfl

/-- C2 witness: a concrete 2×2 matrix whose column 0 is constant. -/
theorem normalize_const_column_zero_witness :
    colMax [[1, 2], [1, 5]] 0 = colMin [[1, 2], [1, 5]] 0 ∧
      ∀ row ∈ normalize [[1, 2], [1, 5]] (colMin [[1, 2], [1, 5]]) (colMax [[1, 2], [1, 5]]),
        row.getD 0 0 = 0 :=
  ⟨by decide, normalize_const_column_zero [[1, 2], [1, 5]] 0 (by decide)⟩

theorem splitIndex_eq (n : ℕ) : splitIndex n = 4 * n / 5 := by
  rw [splitIndex]
  have h4 : (n : ℚ) * (4/5) = ((4 * n : ℕ) : ℚ) / ((5 : ℕ) : ℚ) := by push_cast; ring
  rw [h4, Rat.floor_natCast_div_natCast]
  omega

/-- C3: the train/validation split is positional and deterministic: the first
`⌊0.8·n⌋` records (in generation order) are the training block, the remaining
`n - ⌊0.8·n⌋` are the validation block, their concatenation is the original
sequence, and for `n = 150` the blocks are exactly the first 120 and the last
30 records. -/
theorem trainValSplit_positional (xs : List Product) :
    (trainValSplit xs).1 = xs.take (4 * xs.length / 5) ∧
    (trainValSplit xs).2 = xs.drop (4 * xs.length / 5) ∧
    (trainValSplit xs).1 ++ (trainValSplit xs).2 = xs ∧
    (trainValSplit xs).1.length = 4 * xs.length / 5 ∧
    (trainValSplit xs).2.length = xs.length - 4 * xs.length / 5 ∧
    (xs.length = 150 →
      (trainValSplit xs).1 = xs.take 120 ∧ (trainValSplit xs).2 = xs.drop 120 ∧
        (trainValSplit xs).1.length = 120 ∧ (trainValSplit xs).2.length = 30) := by
  have hle : 4 * xs.length / 5 ≤ xs.length := by omega
  refine ⟨by rw [trainValSplit, splitIndex_eq], by rw [trainValSplit, splitIndex_eq], ?_, ?_, ?_, ?_⟩
  · rw [trainValSplit]; exact xs.take_append_drop _
  · rw [trainValSplit, splitIndex_eq]; simp; omega
  · rw [trainValSplit, splitIndex_eq]; simp
  · intro h150
    rw [trainValSplit, splitIndex_eq, h150]
    norm_num
    omega

/-- C3 witness: a concrete 150-element list splits 120/30. -/
theorem trainValSplit_positional_witness :
    (List.replicate 150 (default : Product)).length = 150 ∧
      (trainValSplit (List.replicate 150 (default : Product))).1.length = 120 ∧
      (trainValSplit (List.replicate 150 (default : Product))).2.length = 30 :=
  ⟨by simp,
    ((trainValSplit_positional (List.replicate 150 default)).2.2.2.2.2 (by simp)).2.2.1,
    ((trainValSplit_positional (List.replicate 150 default)).2.2.2.2.2 (by simp)).2.2.2⟩

theorem applyPredictions_length (ps : List Product) (f : ℕ → ℚ) :
    (applyPredictions ps f).length = ps.length := by
  simp [applyPredictions]

theorem applyPredictions_getD (ps : List Product) (f : ℕ → ℚ) (i : ℕ) (h : i < ps.length) :
    (applyPredictions ps f).getD i default = applyPred (ps.getD i default) (f i) := by
  have h1 : i < ps.enum.length := by simpa using h
  rw [applyPredictions, List.getD_eq_getElem?_getD, List.getElem?_map,
    List.getElem?_eq_getElem h1, List.getElem_enum]
  rw [List.getD_eq_getElem?_getD, List.getElem?_eq_getElem h]
  rfl

/-- C4: on an empty dataset `trainAndPredict` raises the user-facing alert and
changes nothing (no training, no scoring); a failure thrown during fitting or
scoring is caught and reported with the underlying message while `products`
is left fully unchanged; and `runningModel` is `false` after both the failure
and the success exit path. -/
theorem trainAndPredict_error_handling (st : AppState) (outcome : TrainOutcome) :
    (st.products = [] →
      trainAndPredict st outcome = (st, [strUnits "No products available."])) ∧
    (∀ msg, st.products ≠ [] → outcome = .err msg →
      (trainAndPredict st outcome).1.products = st.products ∧
      (trainAndPredict st outcome).1.stats = st.stats ∧
      (trainAndPredict st outcome).1.runningModel = false ∧
      (trainAndPredict st outcome).2 = [strUnits "Error training/predicting: " ++ msg]) ∧
    (∀ predData valAcc, st.products ≠ [] → outcome = .ok predData valAcc →
      (trainAndPredict st outcome).1.runningModel = false ∧
      (trainAndPredict st outcome).1.products = applyPredictions st.products predData) := by
  refine ⟨fun he => ?_, fun msg hne hout => ?_, fun predData valAcc hne hout => ?_⟩
  · simp [trainAndPredict, he]
  · subst hout; simp [trainAndPredict, hne]
  · subst hout; simp [trainAndPredict, hne]

/-- C4 witness: the empty-dataset path, the failure path and the success path
at concrete states. -/
theorem trainAndPredict_error_handling_witness :
    trainAndPredict ⟨[], false, ⟨0, 0, 0, none⟩⟩ (.err (strUnits "boom")) =
      (⟨[], false, ⟨0, 0, 0, none⟩⟩, [strUnits "No products available."]) ∧
    (trainAndPredict ⟨[default], true, ⟨1, 0, 0, none⟩⟩ (.err (strUnits "boom"))).1.products =
      [default] ∧
    (trainAndPredict ⟨[default], true, ⟨1, 0, 0, none⟩⟩ (.err (strUnits "boom"))).1.runningModel =
      false ∧
    (trainAndPredict ⟨[default], true, ⟨1, 0, 0, none⟩⟩ (.ok (fun _ => 0) none)).1.runningModel =
      false :=
  ⟨(trainAndPredict_error_handling ⟨[], false, ⟨0, 0, 0, none⟩⟩ (.err (strUnits "boom"))).1 rfl,
   ((trainAndPredict_error_handling ⟨[default], true, ⟨1, 0, 0, none⟩⟩
      (.err (strUnits "boom"))).2.1 (strUnits "boom") (by simp) rfl).1,
   ((trainAndPredict_error_handling ⟨[default], true, ⟨1, 0, 0, none⟩⟩
      (.err (strUnits "boom"))).2.1 (strUnits "boom") (by simp) rfl).2.2.1,
   ((trainAndPredict_error_handling ⟨[default], true, ⟨1, 0, 0, none⟩⟩
      (.ok (fun _ => 0) none)).2.2 (fun _ => 0) none (by simp) rfl).1⟩

/-- C5: `reorder` is a pure function of the record's three numeric fields
fixed at generation (first conjunct) and a prediction pass never modifies it;
a second prediction pass wholesale-overwrites the prediction fields, so after
two passes no record retains any score, label or text from the first pass,
and the five base fields are those of the original record. -/
theorem training_rewrites_only_predictions (s c : ℕ → ℚ) (j : ℕ)
    (ps : List Product) (f g : ℕ → ℚ) (i : ℕ) (h : i < ps.length) :
    (mkProduct s c j).reorder =
      reorderRule (mkProduct s c j).currentInventory (mkProduct s c j).avgSalesPerWeek
        (mkProduct s c j).daysToReplenish ∧
    ((applyPredictions (applyPredictions ps f) g).getD i default).id = (ps.getD i default).id ∧
    ((applyPredictions (applyPredictions ps f) g).getD i default).name = (ps.getD i default).name ∧
    ((applyPredictions (applyPredictions ps f) g).getD i default).currentInventory =
      (ps.getD i default).currentInventory ∧
    ((applyPredictions (applyPredictions ps f) g).getD i default).avgSalesPerWeek =
      (ps.getD i default).avgSalesPerWeek ∧
    ((applyPredictions (applyPredictions ps f) g).getD i default).daysToReplenish =
      (ps.getD i default).daysToReplenish ∧
    ((applyPredictions (applyPredictions ps f) g).getD i default).reorder =
      (ps.getD i default).reorder ∧
    ((applyPredictions (applyPredictions ps f) g).getD i default).predictionScore = some (g i) ∧
    ((applyPredictions (applyPredictions ps f) g).getD i default).prediction =
      some (if g i > 1/2 then 1 else 0) := by
  have h1 : i < (applyPredictions ps f).length := by rw [applyPredictions_length]; exact h
  rw [applyPredictions_getD (applyPredictions ps f) g i h1, applyPredictions_getD ps f i h]
  refine ⟨mkProduct_reorder_eq_rule s c j, ?_⟩
  simp [applyPred]

/-- C5 witness: concrete two-pass run over a one-record dataset. -/
theorem training_rewrites_only_predictions_witness :
    (0 : ℕ) < [(default : Product)].length ∧
      ((applyPredictions (applyPredictions [(default : Product)] (fun _ => 1))
          (fun _ => 1/4)).getD 0 default).predictionScore = some (1/4) :=
  ⟨by decide,
    (training_rewrites_only_predictions (fun _ => 0) (fun _ => 0) 1 [(default : Product)]
      (fun _ => 1) (fun _ => 1/4) 0 (by decide)).2.2.2.2.2.2.2.1⟩

/-- C6: after a successful training cycle every record's stored score is a
sigmoid output, hence lies in the closed interval `[0,1]`, and the stored
`prediction` is `1` exactly when the score exceeds `0.5` and `0` otherwise. -/
theorem prediction_score_bounds (net : ℕ → ℝ) (scores : ℕ → ℚ)
    (hs : ∀ j, (scores j : ℝ) = sigmoid (net j))
    (ps : List Product) (i : ℕ) (h : i < ps.length) :
    ∃ q : ℚ, ((applyPredictions ps scores).getD i default).predictionScore = some q ∧
      0 ≤ q ∧ q ≤ 1 ∧
      ((applyPredictions ps scores).getD i default).prediction =
        some (if q > 1/2 then 1 else 0) := by
  have hbounds : ∀ x : ℝ, 0 ≤ sigmoid x ∧ sigmoid x ≤ 1 := by
    intro x
    have hexp : 0 < Real.exp (-x) := Real.exp_pos _
    constructor
    · apply div_nonneg zero_le_one
      linarith
    · rw [sigmoid, div_le_one (by linarith)]
      linarith
  have h0 : (0 : ℝ) ≤ (scores i : ℝ) := by rw [hs i]; exact (hbounds (net i)).1
  have h1 : ((scores i : ℝ)) ≤ 1 := by rw [hs i]; exact (hbounds (net i)).2
  refine ⟨scores i, ?_, by exact_mod_cast h0, by exact_mod_cast h1, ?_⟩
  · rw [applyPredictions_getD ps scores i h]; rfl
  · rw [applyPredictions_getD ps scores i h]; rfl

/-- C6 witness: a zero pre-activation gives the score `1/2`. -/
theorem prediction_score_bounds_witness :
    (∀ _j : ℕ, (((1 : ℚ)/2 : ℚ) : ℝ) = sigmoid 0) ∧
      (0 : ℕ) < [(default : Product)].length ∧
      ∃ q : ℚ, ((applyPredictions [(default : Product)] (fun _ => 1/2)).getD 0
          default).predictionScore = some q ∧
        0 ≤ q ∧ q ≤ 1 ∧
        ((applyPredictions [(default : Product)] (fun _ => 1/2)).getD 0 default).prediction =
          some (if q > 1/2 then 1 else 0) := by
  have hsig : (((1 : ℚ)/2 : ℚ) : ℝ) = sigmoid 0 := by
    rw [sigmoid]
    rw [neg_zero, Real.exp_zero]
    norm_num
  exact ⟨fun _ => hsig, by decide,
    prediction_score_bounds (fun _ => 0) (fun _ => 1/2) (fun _ => hsig)
      [(default : Product)] 0 (by decide)⟩

theorem toDigitsRev_eq_digits (fuel : ℕ) :
    ∀ n, n ≤ fuel → toDigitsRev fuel n = Nat.digits 10 n := by
  induction fuel with
  | zero =>
    intro n hn
    have h0 : n = 0 := by omega
    subst h0
    simp [toDigitsRev]
  | succ m ih =>
    intro n hn
    rw [toDigitsRev]
    by_cases h0 : n = 0
    · subst h0; simp
    · rw [if_neg h0, ih (n / 10) (by omega),
        Nat.digits_def' (by norm_num : (1 : ℕ) < 10) (Nat.pos_of_ne_zero h0)]

theorem parseNat_natUnits (n : ℕ) : parseNat (natUnits n) = n := by
  by_cases h0 : n = 0
  · subst h0; rfl
  · rw [natUnits, if_neg h0, toDigitsRev_eq_digits n n le_rfl, parseNat, List.foldl_map,
      List.foldl_reverse]
    have horner : ∀ L : List ℕ,
        L.foldr (fun d acc => 10 * acc + (48 + d - 48)) 0 = Nat.ofDigits 10 L := by
      intro L
      induction L with
      | nil => simp [Nat.ofDigits]
      | cons d L ihL =>
        rw [List.foldr_cons, ihL, Nat.ofDigits_cons]
        omega
    rw [horner, Nat.ofDigits_digits]

theorem natUnits_mem (n : ℕ) : ∀ u ∈ natUnits n, 47 < u ∧ u < 58 := by
  intro u hu
  by_cases h0 : n = 0
  · subst h0
    simp [natUnits] at hu
    omega
  · rw [natUnits, if_neg h0, toDigitsRev_eq_digits n n le_rfl] at hu
    simp only [List.mem_map, List.mem_reverse] at hu
    obtain ⟨d, hd, rfl⟩ := hu
    have := Nat.digits_lt_base (by norm_num) hd
    omega

theorem splitSep_no_sep (sep : ℕ) (f : List ℕ) (hf : sep ∉ f) : splitSep sep f = [f] := by
  induction f with
  | nil => rfl
  | cons u f ih =>
    have h1 : ¬ u = sep := fun e => hf (e ▸ List.mem_cons_self u f)
    have h2 : sep ∉ f := fun m => hf (List.mem_cons_of_mem _ m)
    simp only [splitSep, if_neg h1, ih h2]

theorem splitSep_append (sep : ℕ) (f rest : List ℕ) (hf : sep ∉ f) :
    splitSep sep (f ++ sep :: rest) = f :: splitSep sep rest := by
  induction f with
  | nil => simp [splitSep]
  | cons u f ih =>
    have h1 : ¬ u = sep := fun e => hf (e ▸ List.mem_cons_self u f)
    have h2 : sep ∉ f := fun m => hf (List.mem_cons_of_mem _ m)
    simp only [List.cons_append, splitSep, if_neg h1, List.append_eq, ih h2]

theorem splitSep_joinSep (sep : ℕ) (fields : List (List ℕ)) (hne : fields ≠ [])
    (h : ∀ f ∈ fields, sep ∉ f) :
    splitSep sep (joinSep sep fields) = fields := by
  induction fields with
  | nil => exact absurd rfl hne
  | cons f fs ih =>
    cases fs with
    | nil => exact splitSep_no_sep sep f (h f (List.mem_cons_self f []))
    | cons g gs =>
      rw [joinSep, splitSep_append sep f _ (h f (List.mem_cons_self _ _)),
        ih (by simp) (fun x hx => h x (List.mem_cons_of_mem _ hx))]

theorem mem_joinSep (sep u : ℕ) (fs : List (List ℕ)) (hu : u ∈ joinSep sep fs) :
    u = sep ∨ ∃ f ∈ fs, u ∈ f := by
  induction fs with
  | nil => simp [joinSep] at hu
  | cons f gs ih =>
    cases gs with
    | nil => exact Or.inr ⟨f, List.mem_cons_self _ _, hu⟩
    | cons g gs' =>
      rw [joinSep, List.mem_append, List.mem_cons] at hu
      rcases hu with h | h | h
      · exact Or.inr ⟨f, List.mem_cons_self _ _, h⟩
      · exact Or.inl h
      · rcases ih h with h' | ⟨f', hf', hu'⟩
        · exact Or.inl h'
        · exact Or.inr ⟨f', List.mem_cons_of_mem _ hf', hu'⟩

theorem mem_escapeQuotes (u : ℕ) (l : List ℕ) (hu : u ∈ escapeQuotes l) :
    u = 34 ∨ u ∈ l := by
  rw [escapeQuotes] at hu
  simp only [List.mem_flatMap] at hu
  obtain ⟨v, hv, hu⟩ := hu
  by_cases h34 : v = 34
  · subst h34
    simp at hu
    exact Or.inl hu
  · rw [if_neg h34] at hu
    simp at hu
    subst hu
    exact Or.inr hv

theorem toFixed4Nat_mem (m : ℕ) : ∀ u ∈ toFixed4Nat m, u ≠ 44 ∧ u ≠ 10 := by
  intro u hu
  rw [toFixed4Nat] at hu
  simp only [List.append_assoc, List.mem_append, List.mem_singleton] at hu
  rcases hu with hu | hu | hu
  · have := natUnits_mem _ u hu
    omega
  · omega
  · rw [padZeros] at hu
    rcases List.mem_append.1 hu with hu | hu
    · have := List.eq_of_mem_replicate hu
      omega
    · have := natUnits_mem _ u hu
      omega

theorem toFixed4_mem (q : ℚ) : ∀ u ∈ toFixed4 q, u ≠ 44 ∧ u ≠ 10 := by
  intro u hu
  rw [toFixed4] at hu
  by_cases hq : q < 0
  · rw [if_pos hq] at hu
    rcases List.mem_cons.1 hu with rfl | hu
    · omega
    · exact toFixed4Nat_mem _ u hu
  · rw [if_neg hq] at hu
    exact toFixed4Nat_mem _ u hu

theorem csvRow_fields_safe (p : Product) (hname : nameSafe p.name) :
    ∀ f ∈ [natUnits p.id, quoteField p.name, natUnits p.currentInventory,
      natUnits p.avgSalesPerWeek, natUnits p.daysToReplenish, natUnits p.reorder,
      predictionField p, predictionScoreField p], ∀ u ∈ f, u ≠ 44 ∧ u ≠ 10 := by
  have hnat : ∀ n : ℕ, ∀ u ∈ natUnits n, u ≠ 44 ∧ u ≠ 10 := by
    intro n u hu
    have := natUnits_mem n u hu
    omega
  have hquote : ∀ u ∈ quoteField p.name, u ≠ 44 ∧ u ≠ 10 := by
    intro u hu
    rw [quoteField] at hu
    rcases List.mem_cons.1 hu with rfl | hu
    · omega
    · rcases List.mem_append.1 hu with hu | hu
      · rcases mem_escapeQuotes u _ hu with rfl | hu
        · omega
        · exact ⟨fun e => hname.1 (e ▸ hu), fun e => hname.2 (e ▸ hu)⟩
      · simp at hu
        omega
  have hpred : ∀ u ∈ predictionField p, u ≠ 44 ∧ u ≠ 10 := by
    intro u hu
    rcases hp : p.prediction with _ | v
    · simp only [predictionField, hp, List.not_mem_nil] at hu
    · simp only [predictionField, hp] at hu
      exact hnat v u hu
  have hscore : ∀ u ∈ predictionScoreField p, u ≠ 44 ∧ u ≠ 10 := by
    intro u hu
    rcases hp : p.predictionScore with _ | q
    · simp only [predictionScoreField, hp, List.not_mem_nil] at hu
    · simp only [predictionScoreField, hp] at hu
      by_cases hq : q = 0
      · rw [if_pos hq] at hu
        simp at hu
      · rw [if_neg hq] at hu
        exact toFixed4_mem q u hu
  intro f hf
  simp only [List.mem_cons, List.not_mem_nil, or_false] at hf
  rcases hf with rfl | rfl | rfl | rfl | rfl | rfl | rfl | rfl
  · exact hnat _
  · exact hquote
  · exact hnat _
  · exact hnat _
  · exact hnat _
  · exact hnat _
  · exact hpred
  · exact hscore

theorem csvRow_no_newline (p : Product) (hname : nameSafe p.name) :
    ∀ u ∈ csvRow p, u ≠ 10 := by
  intro u hu
  rcases mem_joinSep 44 u _ hu with rfl | ⟨f, hf, hu'⟩
  · omega
  · exact (csvRow_fields_safe p hname f hf u hu').2

theorem csvHeader_no_newline : ∀ u ∈ csvHeader, u ≠ 10 := by decide

theorem splitSep_csvRow (p : Product) (hname : nameSafe p.name) :
    splitSep 44 (csvRow p) =
      [natUnits p.id, quoteField p.name, natUnits p.currentInventory,
        natUnits p.avgSalesPerWeek, natUnits p.daysToReplenish, natUnits p.reorder,
        predictionField p, predictionScoreField p] := by
  rw [csvRow]
  apply splitSep_joinSep
  · simp
  · intro f hf hmem
    exact (csvRow_fields_safe p hname f hf 44 hmem).1 rfl

theorem splitSep_csvFile (ps : List Product) (hnames : ∀ p ∈ ps, nameSafe p.name) :
    splitSep 10 (csvFile ps) = csvHeader :: ps.map csvRow := by
  rw [csvFile]
  apply splitSep_joinSep
  · simp
  · intro f hf
    rcases List.mem_cons.1 hf with rfl | hf
    · intro hmem
      exact csvHeader_no_newline 10 hmem rfl
    · obtain ⟨p, hp, rfl⟩ := List.mem_map.1 hf
      intro hmem
      exact csvRow_no_newline p (hnames p hp) 10 hmem rfl

theorem names_units_safe : ∀ x ∈ names, 44 ∉ strUnits x ∧ 10 ∉ strUnits x := by decide

theorem generated_name_safe (s c : ℕ → ℚ) (n : ℕ) :
    ∀ p ∈ generateProducts s c n, nameSafe p.name := by
  intro p hp
  rw [generateProducts_eq_map] at hp
  obtain ⟨k, _, rfl⟩ := List.mem_map.1 hp
  have hbase : ∀ m : ℕ, 44 ∉ strUnits (names.getD m "") ∧ 10 ∉ strUnits (names.getD m "") := by
    intro m
    by_cases hm : m < names.length
    · rw [List.getD_eq_getElem _ _ hm]
      exact names_units_safe _ (List.getElem_mem hm)
    · rw [List.getD_eq_default _ _ (by omega)]
      simp [strUnits]
  have hdig : ∀ m : ℕ, 44 ∉ natUnits m ∧ 10 ∉ natUnits m := by
    intro m
    constructor <;> · intro hmem; have := natUnits_mem m _ hmem; omega
  have hname : (mkProduct s c (k + 1)).name =
      strUnits (names.getD ((k + 1) % names.length) "") ++ [32] ++ natUnits (k + 1) := rfl
  constructor
  · rw [hname]
    simp only [List.append_assoc, List.mem_append, List.mem_singleton]
    push_neg
    exact ⟨(hbase _).1, by omega, (hdig _).1⟩
  · rw [hname]
    simp only [List.append_assoc, List.mem_append, List.mem_singleton]
    push_neg
    exact ⟨(hbase _).2, by omega, (hdig _).2⟩

/-- C9: CSV export round-trip.  Every name the generator produces is CSV-safe
(first conjunct), and for any dataset of records with CSV-safe names, parsing
the exported file — splitting on newlines, splitting the data row of record
`i` on commas (the name field stays double-quoted and is skipped here) —
recovers the same `id`, `currentInventory`, `avgSalesPerWeek`,
`daysToReplenish` and `reorder` values as held in memory. -/
theorem csv_roundtrip (ps : List Product) (hnames : ∀ p ∈ ps, nameSafe p.name)
    (i : ℕ) (h : i < ps.length) :
    (∀ s c n p, p ∈ generateProducts s c n → nameSafe p.name) ∧
    parseNat ((splitSep 44 ((splitSep 10 (csvFile ps)).getD (i + 1) [])).getD 0 []) =
      (ps.getD i default).id ∧
    parseNat ((splitSep 44 ((splitSep 10 (csvFile ps)).getD (i + 1) [])).getD 2 []) =
      (ps.getD i default).currentInventory ∧
    parseNat ((splitSep 44 ((splitSep 10 (csvFile ps)).getD (i + 1) [])).getD 3 []) =
      (ps.getD i default).avgSalesPerWeek ∧
    parseNat ((splitSep 44 ((splitSep 10 (csvFile ps)).getD (i + 1) [])).getD 4 []) =
      (ps.getD i default).daysToReplenish ∧
    parseNat ((splitSep 44 ((splitSep 10 (csvFile ps)).getD (i + 1) [])).getD 5 []) =
      (ps.getD i default).reorder := by
  have hget : ps.getD i default = ps[i] := List.getD_eq_getElem ps default h
  have hmem : ps.getD i default ∈ ps := by
    rw [hget]
    exact List.getElem_mem h
  have hrow : (splitSep 10 (csvFile ps)).getD (i + 1) [] = csvRow (ps.getD i default) := by
    rw [splitSep_csvFile ps hnames, List.getD_cons_succ, hget,
      List.getD_eq_getElem (ps.map csvRow) [] (by simpa using h), List.getElem_map]
  rw [hrow, splitSep_csvRow _ (hnames _ hmem)]
  exact ⟨fun s c n p hp => generated_name_safe s c n p hp,
    parseNat_natUnits _, parseNat_natUnits _, parseNat_natUnits _,
    parseNat_natUnits _, parseNat_natUnits _⟩

/-- C9 witness: a concrete one-record dataset round-trips its `id`. -/
theorem csv_roundtrip_witness :
    (∀ p ∈ [(⟨7, strUnits "Pen 1", 3, 4, 5, 1, none, none, none⟩ : Product)], nameSafe p.name) ∧
      (0 : ℕ) < 1 ∧
      parseNat ((splitSep 44
          ((splitSep 10
            (csvFile [(⟨7, strUnits "Pen 1", 3, 4, 5, 1, none, none, none⟩ : Product)])).getD 1
            [])).getD 0 []) =
        (([(⟨7, strUnits "Pen 1", 3, 4, 5, 1, none, none, none⟩ : Product)]).getD 0 default).id :=
  ⟨by decide, by decide,
    (csv_roundtrip [(⟨7, strUnits "Pen 1", 3, 4, 5, 1, none, none, none⟩ : Product)]
      (by decide) 0 (by decide)).2.1⟩

/-- C10: the exported `predictionScore` field is blank whenever the stored
score is falsy — a record whose score is exactly `0` exports an empty score
field even after a successful training cycle, while its `prediction` field
(a nullish check, not truthiness) still exports `"0"`. -/
theorem score_zero_exports_blank (ps : List Product) (f : ℕ → ℚ) (i : ℕ)
    (h : i < ps.length) (hf : f i = 0) :
    ((applyPredictions ps f).getD i default).predictionScore = some 0 ∧
    predictionScoreField ((applyPredictions ps f).getD i default) = [] ∧
    predictionField ((applyPredictions ps f).getD i default) = [48] := by
  rw [applyPredictions_getD ps f i h]
  have hlabel : ¬ ((0 : ℚ) > 1/2) := by norm_num
  refine ⟨?_, ?_, ?_⟩
  · simp [applyPred, hf]
  · simp [applyPred, predictionScoreField, hf]
  · simp [applyPred, predictionField, hf, hlabel, natUnits]

/-- C10 witness: one record scored exactly `0`. -/
theorem score_zero_exports_blank_witness :
    (0 : ℕ) < [(default : Product)].length ∧ ((fun _ : ℕ => (0 : ℚ)) 0 = 0) ∧
      predictionScoreField ((applyPredictions [(default : Product)]
        (fun _ => 0)).getD 0 default) = [] ∧
      predictionField ((applyPredictions [(default : Product)]
        (fun _ => 0)).getD 0 default) = [48] :=
  ⟨by decide, rfl,
    (score_zero_exports_blank [(default : Product)] (fun _ => 0) 0 (by decide) rfl).2.1,
    (score_zero_exports_blank [(default : Product)] (fun _ => 0) 0 (by decide) rfl).2.2⟩

end Forecast
